import Mathlib

/-!
# Room checkout backend (`server.js`)

A shallow embedding of the two HTTP handlers of `server.js`:

* `POST /checkout` (lines 16-30): merges `checkedOut: true` and the current
  time into the room document keyed by `roomNumber.toString()`;
* `GET /rooms` (lines 33-37): lists the documents whose `checkedOut` field
  equals `true`, each as `{ id: doc.id, ...doc.data() }`.

The document store is an external collaborator.  It is modelled as a finite
map from document identifiers to documents, a document being a finite map
from field names to values.  The clock (`new Date()`) and the outcome of each
store round trip are inputs of the handlers.
-/

namespace PMSHotel

/-! ## Values -/

/-- A safe integer: an integer of magnitude below `2 ^ 53`.  In this range
every integer is a number of the language, JSON parsing reads it exactly, and
`Number.prototype.toString` prints its decimal digits. -/
abbrev SafeInteger : Type :=
  { n : Int // -9007199254740992 < n ∧ n < 9007199254740992 }

/-- A value of the parsed JSON request body, as far as `roomNumber` is
concerned: absent (`undefined`), `null`, a boolean, a number or a string.
The numbers are the safe integers; fractions and integers of larger magnitude
are not values of this type. -/
inductive JsValue where
  | undefined
  | null
  | bool (b : Bool)
  | num (n : SafeInteger)
  | str (s : String)
  deriving DecidableEq, Repr

/-- A value stored in a field of a document, or carried by a field of a
response element.  A `Date` written to the store is a `timestamp`
(milliseconds since the epoch). -/
inductive FsValue where
  | null
  | bool (b : Bool)
  | num (n : Int)
  | str (s : String)
  | timestamp (ms : Int)
  deriving DecidableEq, Repr

/-- An object whose properties (or a document whose fields) hold values of
type `V`: a finite map from names to values, one value per name. -/
abbrev Obj (V : Type) : Type := AList (fun _ : String => V)

/-- The fields of one room document (`doc.data()`). -/
abbrev Doc : Type := Obj FsValue

/-- A document of a query snapshot: its identifier (`doc.id`) with its fields
(`doc.data()`). -/
abbrev DocSnapshot : Type := Sigma fun _ : String => Doc

/-- The `rooms` collection: documents keyed by document identifier. -/
abbrev Store : Type := AList (fun _ : String => Doc)

/-- The ways a handler can end without a response body. -/
inductive Fault where
  | typeError
  | storeFailure
  deriving DecidableEq, Repr

/-- The body sent by `res.json` at line 29. -/
structure CheckoutAck where
  success : Bool
  message : String
  deriving DecidableEq, Repr

/-! ## String coercions -/

/-- The abstract operation `Number::toString` on a safe integer: its decimal
digits, after a minus sign when it is negative. -/
def numberToString (n : SafeInteger) : String := toString n.val

/-- The method call `v.toString()` of line 21.  Reading a property of
`undefined` or `null` throws a `TypeError`. -/
def toStringMethod : JsValue → Except Fault String
  | .undefined => .error .typeError
  | .null => .error .typeError
  | .bool b => .ok (if b then "true" else "false")
  | .num n => .ok (numberToString n)
  | .str s => .ok s

/-- The coercion applied by the template literal of line 29, which never
throws on a primitive value. -/
def templateToString : JsValue → String
  | .undefined => "undefined"
  | .null => "null"
  | .bool b => if b then "true" else "false"
  | .num n => numberToString n
  | .str s => s

/-- The global function `String(v)` on the values a room identifier can take. -/
def jsString : JsValue → String
  | .undefined => "undefined"
  | .null => "null"
  | .bool b => if b then "true" else "false"
  | .num n => numberToString n
  | .str s => s

/-! ## The document store -/

/-- Modelled from the spec: the Document Store's partial update,
`doc(key).set(data, { merge: true })`.  A write that the store accepts leaves
under `key` the fields of `data` over the fields already stored there (an
absent document counts as empty) and touches no other document.  A write that
the store rejects leaves the collection as it was. -/
def setMerge (writeOk : Bool) (db : Store) (key : String) (data : Doc) :
    Except Fault Unit × Store :=
  if writeOk then
    (.ok (), db.insert key (data ∪ (db.lookup key).getD ∅))
  else
    (.error .storeFailure, db)

/-- Modelled from the spec: the Document Store's equality filter,
`where(field, '==', value).get()`.  The snapshot holds every document of the
collection whose `field` is stored and equal to `value`. -/
def whereEq (db : Store) (field : String) (value : FsValue) :
    List (DocSnapshot) :=
  db.entries.filter (fun doc => doc.2.lookup field == some value)

/-! ## The handlers -/

/-- What a `POST /checkout` call reads from outside the store: the clock and
whether the store accepts the write. -/
structure CheckoutEnv where
  now : Int
  writeOk : Bool
  deriving DecidableEq, Repr

/-- The object literal `{ checkedOut: true, checkoutTime }` of lines 22-23. -/
def checkoutData (checkoutTime : Int) : Doc :=
  ((∅ : Doc).insert "checkoutTime" (.timestamp checkoutTime)).insert "checkedOut" (.bool true)

/-- The destructuring `const { roomNumber } = req.body` of line 17: a property
the body does not have reads as `undefined`. -/
def roomNumberOf (body : Obj JsValue) : JsValue :=
  (body.lookup "roomNumber").getD .undefined

/-- The handler of `POST /checkout` (lines 16-30), on the request body and the
store; it gives the response, or the fault the call ends in, and the store
after the call. -/
def checkout (env : CheckoutEnv) (body : Obj JsValue) (db : Store) :
    Except Fault CheckoutAck × Store :=
  let roomNumber := roomNumberOf body
  let checkoutTime := env.now
  match toStringMethod roomNumber with
  | .error f => (.error f, db)
  | .ok key =>
    match setMerge env.writeOk db key (checkoutData checkoutTime) with
    | (.error f, db1) => (.error f, db1)
    | (.ok _, db1) =>
      (.ok ⟨true, "Room " ++ templateToString roomNumber ++ " checked out."⟩, db1)

/-- The object literal `{ id: doc.id, ...doc.data() }` of line 35: the `id`
property is defined first and the spread then copies every field of the
document over it. -/
def roomElement (doc : DocSnapshot) : Obj FsValue :=
  doc.2 ∪ AList.singleton "id" (.str doc.1)

/-- The handler of `GET /rooms` (lines 33-37): the response, or the fault of a
failed read, and the store after the call. -/
def getRooms (readOk : Bool) (db : Store) : Except Fault (List (Obj FsValue)) × Store :=
  if readOk then
    (.ok ((whereEq db "checkedOut" (.bool true)).map roomElement), db)
  else
    (.error .storeFailure, db)

/-- The request body `{ "roomNumber": v }`. -/
def bodyOf (v : JsValue) : Obj JsValue := AList.singleton "roomNumber" v

/-- The field `field` of the document stored under `key`, if both exist. -/
def fieldOf (db : Store) (key field : String) : Option FsValue :=
  (db.lookup key).bind (fun d => d.lookup field)

/-- A request to the server, with what the call reads from outside the store. -/
inductive Request where
  | postCheckout (env : CheckoutEnv) (body : Obj JsValue)
  | getRoomsList (readOk : Bool)

/-- The store after the server has handled one request. -/
def step (db : Store) : Request → Store
  | .postCheckout env body => (checkout env body db).2
  | .getRoomsList readOk => (getRooms readOk db).2

/-- The store after the server has handled a sequence of requests in turn. -/
def run (db : Store) (reqs : List Request) : Store :=
  reqs.foldl step db

/-- Both fields written by the checkout handler are present in every record. -/
def FlagWithTime (db : Store) : Prop :=
  ∀ k d, db.lookup k = some d →
    d.lookup "checkedOut" = some (.bool true) ∧ ∃ t, d.lookup "checkoutTime" = some (.timestamp t)

/-! ## Concrete stores and requests -/

/-- A store with one checked-out room, "7", and one record, "8", that only
carries a field written by another system. -/
def sampleStore : Store :=
  (AList.singleton "8" (AList.singleton "guest" (.str "Ann"))).insert "7" (checkoutData 3)

/-- A store whose record "101" carries a field written by another system, and
no checkout yet. -/
def guestStore : Store :=
  AList.singleton "101" (AList.singleton "guest" (.str "Ann"))

/-- A store whose record "101", not checked out yet, carries a stored field
named `id` that differs from its document key. -/
def storedIdStore : Store :=
  AList.singleton "101" (AList.singleton "id" (.str "999"))

/-- A store whose checked-out record "101" carries a stored field named `id`
that differs from its document key. -/
def dirtyStoredIdStore : Store :=
  AList.singleton "101"
    ((AList.singleton "id" (.str "999") : Doc).insert "checkedOut" (.bool true))

/-- Three calls in a row: check out room 101, list the rooms, check out room
"12". -/
def sampleRequests : List Request :=
  [.postCheckout ⟨5, true⟩ (bodyOf (.num ⟨101, by decide⟩)), .getRoomsList true,
    .postCheckout ⟨6, true⟩ (bodyOf (.str "12"))]

/-! ## Coercions and the written data -/

theorem roomNumberOf_bodyOf (v : JsValue) : roomNumberOf (bodyOf v) = v := by
  rfl

theorem roomNumberOf_of_lookup {body : Obj JsValue} {r : JsValue}
    (h : body.lookup "roomNumber" = some r) : roomNumberOf body = r := by
  simp [roomNumberOf, h]

theorem templateToString_of_toStringMethod {v : JsValue} {key : String}
    (h : toStringMethod v = .ok key) : templateToString v = key := by
  cases v <;> simp [toStringMethod] at h <;> simp [templateToString, h]

theorem jsString_of_toStringMethod {v : JsValue} {key : String}
    (h : toStringMethod v = .ok key) : jsString v = key := by
  cases v <;> simp [toStringMethod] at h <;> simp [jsString, h]

theorem toStringMethod_fault {v : JsValue} {f : Fault}
    (h : toStringMethod v = .error f) : f = .typeError ∧ (v = .undefined ∨ v = .null) := by
  cases v <;> simp [toStringMethod] at h <;> simp [h]

theorem lookup_checkoutData_checkedOut (t : Int) :
    (checkoutData t).lookup "checkedOut" = some (.bool true) := by
  simp [checkoutData]

theorem lookup_checkoutData_checkoutTime (t : Int) :
    (checkoutData t).lookup "checkoutTime" = some (.timestamp t) := by
  have h : ("checkoutTime" : String) ≠ "checkedOut" := by decide
  simp [checkoutData, AList.lookup_insert_ne h, -AList.insert_empty]

theorem mem_checkoutData {t : Int} {f : String} :
    f ∈ checkoutData t ↔ f = "checkedOut" ∨ f = "checkoutTime" := by
  simp [checkoutData, AList.mem_insert, -AList.insert_empty]

theorem entries_checkoutData (t : Int) :
    (checkoutData t).entries = [⟨"checkedOut", .bool true⟩, ⟨"checkoutTime", .timestamp t⟩] := by
  rfl

/-! ## The three ways a checkout call ends -/

theorem checkout_of_coercion_fault {env : CheckoutEnv} {body : Obj JsValue} {db : Store}
    {f : Fault} (h : toStringMethod (roomNumberOf body) = .error f) :
    checkout env body db = (.error f, db) := by
  simp [checkout, h]

theorem checkout_of_write_fault {env : CheckoutEnv} {body : Obj JsValue} {db : Store}
    {key : String} (h : toStringMethod (roomNumberOf body) = .ok key)
    (hw : env.writeOk = false) :
    checkout env body db = (.error .storeFailure, db) := by
  simp [checkout, h, setMerge, hw]

theorem checkout_of_write_ok {env : CheckoutEnv} {body : Obj JsValue} {db : Store}
    {key : String} (h : toStringMethod (roomNumberOf body) = .ok key)
    (hw : env.writeOk = true) :
    checkout env body db =
      (.ok ⟨true, "Room " ++ key ++ " checked out."⟩,
        db.insert key (checkoutData env.now ∪ (db.lookup key).getD ∅)) := by
  simp [checkout, h, setMerge, hw, templateToString_of_toStringMethod h]

/-! ## The dirty-room query -/

theorem mem_whereEq {db : Store} {field : String} {value : FsValue}
    {doc : DocSnapshot} :
    doc ∈ whereEq db field value ↔ doc ∈ db.entries ∧ doc.2.lookup field = some value := by
  simp [whereEq, List.mem_filter]

theorem mem_entries_iff_lookup {db : Store} {k : String} {d : Doc} :
    (⟨k, d⟩ : DocSnapshot) ∈ db.entries ↔ db.lookup k = some d := by
  rw [← AList.mem_lookup_iff]
  exact Option.mem_def

theorem whereEq_nodupKeys (db : Store) (field : String) (value : FsValue) :
    (whereEq db field value).NodupKeys :=
  db.nodupKeys.sublist (List.filter_sublist _)

theorem lookup_roomElement_of_ne_id (doc : DocSnapshot) {f : String}
    (hf : f ≠ "id") : (roomElement doc).lookup f = doc.2.lookup f := by
  unfold roomElement
  by_cases hm : f ∈ doc.2
  · exact AList.lookup_union_left hm
  · rw [AList.lookup_union_right hm, AList.lookup_eq_none.2 hm, AList.lookup_eq_none]
    simpa [AList.mem_keys, AList.keys_singleton] using hf

theorem lookup_roomElement_id_of_not_mem (doc : DocSnapshot)
    (hm : "id" ∉ doc.2) : (roomElement doc).lookup "id" = some (.str doc.1) := by
  unfold roomElement
  rw [AList.lookup_union_right hm, ← AList.insert_empty, AList.lookup_insert]

theorem lookup_roomElement_id_of_mem (doc : DocSnapshot)
    (hm : "id" ∈ doc.2) : (roomElement doc).lookup "id" = doc.2.lookup "id" := by
  unfold roomElement
  exact AList.lookup_union_left hm

theorem getRooms_of_read_ok (db : Store) :
    getRooms true db = (.ok ((whereEq db "checkedOut" (.bool true)).map roomElement), db) := by
  simp [getRooms]

theorem getRooms_of_read_fault (db : Store) :
    getRooms false db = (.error .storeFailure, db) := by
  simp [getRooms]

theorem getRooms_ok_iff {readOk : Bool} {db : Store} {l : List (Obj FsValue)} :
    (getRooms readOk db).1 = .ok l ↔
      readOk = true ∧ l = (whereEq db "checkedOut" (.bool true)).map roomElement := by
  cases readOk <;> simp [getRooms, eq_comm]

/-! ## Claims about `GET /rooms` -/

/-- C2: every element `GET /rooms` returns has `checkedOut == true`, whatever
the store holds; the call returns a list whenever the read succeeds, and that
list is empty when no stored record has `checkedOut == true`. -/
theorem getRooms_only_checkedOut (db : Store) :
    (∀ readOk l, (getRooms readOk db).1 = .ok l →
        ∀ e ∈ l, e.lookup "checkedOut" = some (.bool true)) ∧
      (∃ l, (getRooms true db).1 = .ok l) ∧
      ((∀ k d, db.lookup k = some d → d.lookup "checkedOut" ≠ some (.bool true)) →
        (getRooms true db).1 = .ok []) := by
  refine ⟨?_, ⟨_, congrArg Prod.fst (getRooms_of_read_ok db)⟩, ?_⟩
  · intro readOk l hl e he
    obtain ⟨-, rfl⟩ := getRooms_ok_iff.1 hl
    obtain ⟨doc, hdoc, rfl⟩ := List.mem_map.1 he
    have hf : ("checkedOut" : String) ≠ "id" := by decide
    rw [lookup_roomElement_of_ne_id doc hf]
    exact (mem_whereEq.1 hdoc).2
  · intro hnone
    rw [getRooms_of_read_ok]
    have hnil : whereEq db "checkedOut" (.bool true) = [] := by
      apply List.eq_nil_iff_forall_not_mem.2
      rintro ⟨k, d⟩ hmem
      obtain ⟨hin, hc⟩ := mem_whereEq.1 hmem
      exact hnone k d (mem_entries_iff_lookup.1 hin) hc
    simp [hnil]

/-- C3: `GET /rooms` returns the full matching set.  The returned list has one
element per stored record with `checkedOut == true`, and for each such record
exactly one position of the list holds the element built from it. -/
theorem getRooms_full_matching_set (db : Store) (k : String) (d : Doc)
    (hk : db.lookup k = some d) (hc : d.lookup "checkedOut" = some (.bool true)) :
    ∃ l, (getRooms true db).1 = .ok l ∧
      l.length = db.entries.countP (fun e => e.2.lookup "checkedOut" == some (.bool true)) ∧
      ∃! i : Nat, (∃ d1, (whereEq db "checkedOut" (.bool true))[i]? = some (⟨k, d1⟩ : DocSnapshot)) ∧
        (whereEq db "checkedOut" (.bool true))[i]? = some (⟨k, d⟩ : DocSnapshot) ∧
        l[i]? = some (roomElement ⟨k, d⟩) := by
  refine ⟨_, congrArg Prod.fst (getRooms_of_read_ok db), ?_, ?_⟩
  · simp [whereEq, List.countP_eq_length_filter]
  · have hmem : (⟨k, d⟩ : DocSnapshot) ∈ whereEq db "checkedOut" (.bool true) :=
      mem_whereEq.2 ⟨mem_entries_iff_lookup.2 hk, hc⟩
    obtain ⟨i, hi⟩ := List.mem_iff_getElem?.1 hmem
    refine ⟨i, ⟨⟨d, hi⟩, hi, by simp [hi]⟩, ?_⟩
    rintro j ⟨⟨d1, hj⟩, -, -⟩
    have hjm : (⟨k, d1⟩ : DocSnapshot) ∈ whereEq db "checkedOut" (.bool true) :=
      List.mem_iff_getElem?.2 ⟨j, hj⟩
    have hd : d1 = d := (whereEq_nodupKeys db _ _).eq_of_mk_mem hjm hmem
    subst hd
    have hjlt : j < (whereEq db "checkedOut" (.bool true)).length := by
      by_contra hge
      rw [List.getElem?_eq_none (Nat.le_of_not_lt hge)] at hj
      exact Option.noConfusion hj
    exact List.getElem?_inj hjlt (whereEq_nodupKeys db _ _).nodup (hj.trans hi.symm)

/-! ## Claims about the write of `POST /checkout` -/

/-- C4: key isolation.  Whatever way a checkout call ends, the record stored
under every document key other than `roomNumber.toString()` (or its absence)
is the same after the call as before. -/
theorem checkout_key_isolation (env : CheckoutEnv) (body : Obj JsValue) (db : Store)
    (k : String) (hk : toStringMethod (roomNumberOf body) ≠ .ok k) :
    (checkout env body db).2.lookup k = db.lookup k := by
  cases hts : toStringMethod (roomNumberOf body) with
  | error f => rw [checkout_of_coercion_fault hts]
  | ok key =>
    have hne : k ≠ key := by
      rintro rfl
      exact hk hts
    cases hw : env.writeOk with
    | false => rw [checkout_of_write_fault hts hw]
    | true => rw [checkout_of_write_ok hts hw]; exact AList.lookup_insert_ne hne

/-- C5: merge, not replace.  When the write succeeds, a record that already
exists under `roomNumber.toString()` keeps the value of every field other than
`checkedOut` and `checkoutTime`, and when no record exists one is created that
holds exactly `checkedOut: true` and `checkoutTime`. -/
theorem checkout_merges (env : CheckoutEnv) (body : Obj JsValue) (db : Store)
    (key : String) (hkey : toStringMethod (roomNumberOf body) = .ok key)
    (hw : env.writeOk = true) :
    (∀ d, db.lookup key = some d →
        ∃ d1, (checkout env body db).2.lookup key = some d1 ∧
          ∀ f, f ≠ "checkedOut" → f ≠ "checkoutTime" → d1.lookup f = d.lookup f) ∧
      (db.lookup key = none →
        ∃ d1, (checkout env body db).2.lookup key = some d1 ∧
          d1.entries =
            [⟨"checkedOut", .bool true⟩, ⟨"checkoutTime", .timestamp env.now⟩]) := by
  rw [checkout_of_write_ok hkey hw]
  constructor
  · intro d hd
    refine ⟨_, AList.lookup_insert _, ?_⟩
    intro f h1 h2
    have hm : f ∉ checkoutData env.now := by
      rw [mem_checkoutData]
      exact fun h => h.elim h1 h2
    rw [AList.lookup_union_right hm, hd]
    rfl
  · intro hnone
    refine ⟨_, AList.lookup_insert _, ?_⟩
    rw [hnone]
    simp only [Option.getD_none, AList.union_empty]
    exact entries_checkoutData env.now

theorem fieldOf_checkout_checkedOut {env : CheckoutEnv} {body : Obj JsValue} {db : Store}
    {key : String} (hkey : toStringMethod (roomNumberOf body) = .ok key)
    (hw : env.writeOk = true) :
    fieldOf (checkout env body db).2 key "checkedOut" = some (.bool true) := by
  rw [checkout_of_write_ok hkey hw, fieldOf, AList.lookup_insert, Option.some_bind,
    AList.lookup_union_left (mem_checkoutData.2 (Or.inl rfl))]
  exact lookup_checkoutData_checkedOut env.now

theorem fieldOf_checkout_checkoutTime {env : CheckoutEnv} {body : Obj JsValue} {db : Store}
    {key : String} (hkey : toStringMethod (roomNumberOf body) = .ok key)
    (hw : env.writeOk = true) :
    fieldOf (checkout env body db).2 key "checkoutTime" = some (.timestamp env.now) := by
  rw [checkout_of_write_ok hkey hw, fieldOf, AList.lookup_insert, Option.some_bind,
    AList.lookup_union_left (mem_checkoutData.2 (Or.inr rfl))]
  exact lookup_checkoutData_checkoutTime env.now

/-- C6, amended: two successful checkout calls with the same `roomNumber`,
reading the clock as `t1` and then `t2`.  The flag `checkedOut` is true after
the first call and after the second; `checkoutTime` is the first reading after
the first call and the second reading after the second call, replacing the
first; it is a later value exactly when the second reading is later than the
first. -/
theorem checkout_twice (db : Store) (body : Obj JsValue) (r : JsValue) (key : String)
    (t1 t2 : Int) (hbody : body.lookup "roomNumber" = some r)
    (hkey : toStringMethod r = .ok key) :
    fieldOf (checkout ⟨t1, true⟩ body db).2 key "checkedOut" = some (.bool true) ∧
      fieldOf (checkout ⟨t2, true⟩ body (checkout ⟨t1, true⟩ body db).2).2 key "checkedOut"
        = some (.bool true) ∧
      fieldOf (checkout ⟨t1, true⟩ body db).2 key "checkoutTime" = some (.timestamp t1) ∧
      fieldOf (checkout ⟨t2, true⟩ body (checkout ⟨t1, true⟩ body db).2).2 key "checkoutTime"
        = some (.timestamp t2) ∧
      ((∃ a b,
        fieldOf (checkout ⟨t1, true⟩ body db).2 key "checkoutTime" = some (.timestamp a) ∧
        fieldOf (checkout ⟨t2, true⟩ body (checkout ⟨t1, true⟩ body db).2).2 key "checkoutTime"
          = some (.timestamp b) ∧
        a < b) ↔ t1 < t2) := by
  have hr : toStringMethod (roomNumberOf body) = .ok key := by
    rw [roomNumberOf_of_lookup hbody]; exact hkey
  have h1 := @fieldOf_checkout_checkoutTime ⟨t1, true⟩ body db key hr rfl
  have h2 := @fieldOf_checkout_checkoutTime ⟨t2, true⟩ body (checkout ⟨t1, true⟩ body db).2 key
    hr rfl
  refine ⟨fieldOf_checkout_checkedOut hr rfl, fieldOf_checkout_checkedOut hr rfl, h1, h2, ?_, ?_⟩
  · rintro ⟨a, b, ha, hb, hlt⟩
    rw [h1] at ha
    rw [h2] at hb
    injection ha with ha
    injection hb with hb
    injection ha with ha
    injection hb with hb
    change t1 = a at ha
    change t2 = b at hb
    rw [ha, hb]
    exact hlt
  · exact fun hlt => ⟨t1, t2, h1, h2, hlt⟩

/-- C6, counterexample to "a later value": with the clock read as 7 at both calls, and with
the clock read as 9 and then as 4, the second call succeeds and stores its own
reading, which is not a later value than the one stored by the first call. -/
theorem checkout_twice_not_later :
    (fieldOf (checkout ⟨7, true⟩ (bodyOf (.str "12")) ∅).2 "12" "checkoutTime"
        = some (.timestamp 7) ∧
      fieldOf (checkout ⟨7, true⟩ (bodyOf (.str "12"))
          (checkout ⟨7, true⟩ (bodyOf (.str "12")) ∅).2).2 "12" "checkoutTime"
        = some (.timestamp 7) ∧
      ¬ ∃ a b,
        fieldOf (checkout ⟨7, true⟩ (bodyOf (.str "12")) ∅).2 "12" "checkoutTime"
          = some (.timestamp a) ∧
        fieldOf (checkout ⟨7, true⟩ (bodyOf (.str "12"))
            (checkout ⟨7, true⟩ (bodyOf (.str "12")) ∅).2).2 "12" "checkoutTime"
          = some (.timestamp b) ∧
        a < b) ∧
    (fieldOf (checkout ⟨9, true⟩ (bodyOf (.str "12")) ∅).2 "12" "checkoutTime"
        = some (.timestamp 9) ∧
      fieldOf (checkout ⟨4, true⟩ (bodyOf (.str "12"))
          (checkout ⟨9, true⟩ (bodyOf (.str "12")) ∅).2).2 "12" "checkoutTime"
        = some (.timestamp 4) ∧
      ¬ ∃ a b,
        fieldOf (checkout ⟨9, true⟩ (bodyOf (.str "12")) ∅).2 "12" "checkoutTime"
          = some (.timestamp a) ∧
        fieldOf (checkout ⟨4, true⟩ (bodyOf (.str "12"))
            (checkout ⟨9, true⟩ (bodyOf (.str "12")) ∅).2).2 "12" "checkoutTime"
          = some (.timestamp b) ∧
        a < b) := by
  refine ⟨⟨rfl, rfl, ?_⟩, ⟨rfl, rfl, ?_⟩⟩
  · rintro ⟨a, b, ha, hb, hlt⟩
    have h1 : fieldOf (checkout ⟨7, true⟩ (bodyOf (.str "12")) ∅).2 "12" "checkoutTime"
        = some (.timestamp 7) := rfl
    have h2 : fieldOf (checkout ⟨7, true⟩ (bodyOf (.str "12"))
        (checkout ⟨7, true⟩ (bodyOf (.str "12")) ∅).2).2 "12" "checkoutTime"
        = some (.timestamp 7) := rfl
    rw [h1] at ha
    rw [h2] at hb
    injection ha with ha
    injection hb with hb
    injection ha with ha
    injection hb with hb
    omega
  · rintro ⟨a, b, ha, hb, hlt⟩
    have h1 : fieldOf (checkout ⟨9, true⟩ (bodyOf (.str "12")) ∅).2 "12" "checkoutTime"
        = some (.timestamp 9) := rfl
    have h2 : fieldOf (checkout ⟨4, true⟩ (bodyOf (.str "12"))
        (checkout ⟨9, true⟩ (bodyOf (.str "12")) ∅).2).2 "12" "checkoutTime"
        = some (.timestamp 4) := rfl
    rw [h1] at ha
    rw [h2] at hb
    injection ha with ha
    injection hb with hb
    injection ha with ha
    injection hb with hb
    omega

/-! ## Claims about the response of `POST /checkout` -/

/-- C8: when the body carries `roomNumber: r` and the write succeeds, the
handler answers `success: true, message: "Room <r> checked out."`, where the
string the message echoes is `String(r)` and is the string `r.toString()`
under which the document was written: the string itself when `r` is a string,
its decimal digits when `r` is a number. -/
theorem checkout_ack_echoes_key (env : CheckoutEnv) (body : Obj JsValue) (db : Store)
    (r : JsValue) (key : String) (hbody : body.lookup "roomNumber" = some r)
    (hkey : toStringMethod r = .ok key) (hw : env.writeOk = true) :
    checkout env body db =
        (.ok ⟨true, "Room " ++ key ++ " checked out."⟩,
          db.insert key (checkoutData env.now ∪ (db.lookup key).getD ∅)) ∧
      key = jsString r ∧
      (∀ s, r = .str s → key = s) ∧
      (∀ n : SafeInteger, r = .num n → key = toString n.val) := by
  have hr : toStringMethod (roomNumberOf body) = .ok key := by
    rw [roomNumberOf_of_lookup hbody]; exact hkey
  refine ⟨checkout_of_write_ok hr hw, (jsString_of_toStringMethod hkey).symm, ?_, ?_⟩
  · rintro s rfl
    simpa [toStringMethod] using hkey.symm
  · rintro n rfl
    simpa [toStringMethod, numberToString] using hkey.symm

/-- C9: the handler returns a success body if and only if the string coercion
of `roomNumber` succeeded and the store accepted the write, and every success
body comes with the document written; when `roomNumber` is `undefined` or
`null` the call ends in a fault and the store is left unchanged. -/
theorem checkout_success_iff (env : CheckoutEnv) (body : Obj JsValue) (db : Store) :
    ((∃ ack, (checkout env body db).1 = .ok ack) ↔
        ((∃ key, toStringMethod (roomNumberOf body) = .ok key) ∧ env.writeOk = true)) ∧
      (∀ ack, (checkout env body db).1 = .ok ack →
        ∃ key, toStringMethod (roomNumberOf body) = .ok key ∧
          fieldOf (checkout env body db).2 key "checkedOut" = some (.bool true)) ∧
      (roomNumberOf body = .undefined ∨ roomNumberOf body = .null →
        checkout env body db = (.error .typeError, db)) := by
  have hsucc : ∀ ack, (checkout env body db).1 = .ok ack →
      ∃ key, toStringMethod (roomNumberOf body) = .ok key ∧ env.writeOk = true := by
    intro ack hack
    cases hts : toStringMethod (roomNumberOf body) with
    | error f => rw [checkout_of_coercion_fault hts] at hack; exact Except.noConfusion hack
    | ok key =>
      cases hw : env.writeOk with
      | false => rw [checkout_of_write_fault hts hw] at hack; exact Except.noConfusion hack
      | true => exact ⟨key, rfl, rfl⟩
  refine ⟨⟨?_, ?_⟩, ?_, ?_⟩
  · rintro ⟨ack, hack⟩
    obtain ⟨key, hkey, hw⟩ := hsucc ack hack
    exact ⟨⟨key, hkey⟩, hw⟩
  · rintro ⟨⟨key, hkey⟩, hw⟩
    exact ⟨_, congrArg Prod.fst (checkout_of_write_ok hkey hw)⟩
  · intro ack hack
    obtain ⟨key, hkey, hw⟩ := hsucc ack hack
    exact ⟨key, hkey, fieldOf_checkout_checkedOut hkey hw⟩
  · intro hmissing
    apply checkout_of_coercion_fault
    rcases hmissing with h | h <;> rw [h] <;> rfl

/-! ## The reachable stores -/

theorem getRooms_store (readOk : Bool) (db : Store) : (getRooms readOk db).2 = db := by
  cases readOk <;> rfl

theorem checkout_store_cases (env : CheckoutEnv) (body : Obj JsValue) (db : Store) :
    (checkout env body db).2 = db ∨
      ∃ key : String, (checkout env body db).2 =
        db.insert key (checkoutData env.now ∪ (db.lookup key).getD ∅) := by
  cases hts : toStringMethod (roomNumberOf body) with
  | error f => exact Or.inl (by rw [checkout_of_coercion_fault hts])
  | ok key =>
    cases hw : env.writeOk with
    | false => exact Or.inl (by rw [checkout_of_write_fault hts hw])
    | true => exact Or.inr ⟨key, by rw [checkout_of_write_ok hts hw]⟩

theorem flagWithTime_step {db : Store} (h : FlagWithTime db) (req : Request) :
    FlagWithTime (step db req) := by
  cases req with
  | getRoomsList readOk => simpa [step, getRooms_store] using h
  | postCheckout env body =>
    rcases checkout_store_cases env body db with hsame | ⟨key, hkey⟩
    · simpa [step, hsame] using h
    · intro k d hd
      simp only [step, hkey] at hd
      by_cases hk : k = key
      · subst hk
        rw [AList.lookup_insert] at hd
        obtain rfl := Option.some.inj hd
        refine ⟨?_, env.now, ?_⟩
        · rw [AList.lookup_union_left (mem_checkoutData.2 (Or.inl rfl))]
          exact lookup_checkoutData_checkedOut env.now
        · rw [AList.lookup_union_left (mem_checkoutData.2 (Or.inr rfl))]
          exact lookup_checkoutData_checkoutTime env.now
      · rw [AList.lookup_insert_ne hk] at hd
        exact h k d hd

theorem mem_step {db : Store} {k : String} (h : k ∈ db) (req : Request) : k ∈ step db req := by
  cases req with
  | getRoomsList readOk => simpa [step, getRooms_store] using h
  | postCheckout env body =>
    rcases checkout_store_cases env body db with hsame | ⟨key, hkey⟩
    · simpa [step, hsame] using h
    · simp only [step, hkey, AList.mem_insert]
      exact Or.inr h

theorem flagWithTime_run {db : Store} (h : FlagWithTime db) (reqs : List Request) :
    FlagWithTime (run db reqs) := by
  induction reqs generalizing db with
  | nil => exact h
  | cons req rest ih => exact ih (flagWithTime_step h req)

theorem mem_run {db : Store} {k : String} (h : k ∈ db) (reqs : List Request) :
    k ∈ run db reqs := by
  induction reqs generalizing db with
  | nil => exact h
  | cons req rest ih => exact ih (mem_step h req)

theorem run_append (db : Store) (reqs more : List Request) :
    run db (reqs ++ more) = run (run db reqs) more := by
  simp [run, List.foldl_append]

/-- C10: in every store reachable from the empty store by a sequence of
`POST /checkout` and `GET /rooms` calls, every room record has
`checkedOut == true` and a `checkoutTime`; a record present at some point is
still present after any further calls; and `GET /rooms` leaves the store
unchanged. -/
theorem reachable_flag_with_time (reqs : List Request) :
    (∀ k d, (run ∅ reqs).lookup k = some d →
        d.lookup "checkedOut" = some (.bool true) ∧
          ∃ t, d.lookup "checkoutTime" = some (.timestamp t)) ∧
      (∀ more k, k ∈ run ∅ reqs → k ∈ run ∅ (reqs ++ more)) ∧
      (∀ readOk, (getRooms readOk (run ∅ reqs)).2 = run ∅ reqs) := by
  refine ⟨?_, ?_, fun readOk => getRooms_store readOk _⟩
  · apply flagWithTime_run
    intro k d hd
    rw [AList.lookup_empty] at hd
    exact Option.noConfusion hd
  · intro more k hk
    rw [run_append]
    exact mem_run hk more

/-! ## The identifier annotation of `GET /rooms` -/

/-- Every element of a `GET /rooms` result is built from one document of the
snapshot; each of its fields other than `id` is the stored field of the same
name, and its `id` is the document key when the document stores no field named
`id`. -/
theorem getRooms_element_fields (db : Store) (e : Obj FsValue)
    (he : e ∈ (whereEq db "checkedOut" (.bool true)).map roomElement) :
    ∃ k d, db.lookup k = some d ∧ e = roomElement ⟨k, d⟩ ∧
      (∀ f, f ≠ "id" → e.lookup f = d.lookup f) ∧
      ("id" ∉ d → e.lookup "id" = some (.str k)) := by
  obtain ⟨⟨k, d⟩, hdoc, rfl⟩ := List.mem_map.1 he
  exact ⟨k, d, mem_entries_iff_lookup.1 (mem_whereEq.1 hdoc).1, rfl,
    fun f hf => lookup_roomElement_of_ne_id _ hf, lookup_roomElement_id_of_not_mem ⟨k, d⟩⟩

/-- C7, at the store `dirtyStoredIdStore`: the only element `GET /rooms`
returns is built from the record under document key "101", and its `id` field
is the stored value "999", not the document key. -/
theorem getRooms_stored_id_shadows_key :
    ∃ e, (getRooms true dirtyStoredIdStore).1 = .ok [e] ∧
      (∃ d, dirtyStoredIdStore.lookup "101" = some d ∧ e = roomElement ⟨"101", d⟩) ∧
      e.lookup "id" = some (.str "999") ∧
      e.lookup "id" ≠ some (.str "101") :=
  ⟨_, rfl, ⟨_, rfl, rfl⟩, rfl, by decide⟩

/-- A successful checkout followed by a successful `GET /rooms` lists the room
under its identifier, provided the record stored under that identifier carries
no field named `id`. -/
theorem checkout_then_rooms_of_no_stored_id (env : CheckoutEnv) (body : Obj JsValue)
    (db : Store) (key : String) (hkey : toStringMethod (roomNumberOf body) = .ok key)
    (hw : env.writeOk = true) (hid : ∀ d, db.lookup key = some d → "id" ∉ d) :
    ∃ l, (getRooms true (checkout env body db).2).1 = .ok l ∧
      ∃ e ∈ l, e.lookup "id" = some (.str (jsString (roomNumberOf body))) ∧
        e.lookup "checkedOut" = some (.bool true) ∧
        e.lookup "checkoutTime" = some (.timestamp env.now) := by
  refine ⟨_, congrArg Prod.fst (getRooms_of_read_ok _), ?_⟩
  have hflag := @fieldOf_checkout_checkedOut env body db key hkey hw
  have htime := @fieldOf_checkout_checkoutTime env body db key hkey hw
  have hstore := congrArg Prod.snd (@checkout_of_write_ok env body db key hkey hw)
  cases hd : (checkout env body db).2.lookup key with
  | none => simp [fieldOf, hd] at hflag
  | some d1 =>
    simp only [fieldOf, hd, Option.some_bind] at hflag htime
    have hnot : "id" ∉ d1 := by
      rw [hstore, AList.lookup_insert] at hd
      obtain rfl := Option.some.inj hd
      rw [AList.mem_union, mem_checkoutData]
      rintro ((h | h) | h)
      · exact absurd h (by decide)
      · exact absurd h (by decide)
      · cases hold : db.lookup key with
        | none => rw [hold] at h; exact AList.not_mem_empty _ h
        | some d => rw [hold] at h; exact hid d hold h
    refine ⟨roomElement ⟨key, d1⟩, List.mem_map.2 ⟨⟨key, d1⟩, ?_, rfl⟩, ?_, ?_, ?_⟩
    · exact mem_whereEq.2 ⟨mem_entries_iff_lookup.2 hd, hflag⟩
    · rw [lookup_roomElement_id_of_not_mem _ hnot, jsString_of_toStringMethod hkey]
    · rw [lookup_roomElement_of_ne_id _ (by decide)]; exact hflag
    · rw [lookup_roomElement_of_ne_id _ (by decide)]; exact htime

/-- C1, at the store `storedIdStore` and the body `roomNumber: 101`: the
checkout succeeds, and the only element the following `GET /rooms` returns has
`checkedOut == true` and the stored `id` "999", so no returned element has
`id == String(101)`. -/
theorem checkout_then_rooms_stored_id :
    jsString (.num ⟨101, by decide⟩) = "101" ∧
      (checkout ⟨5, true⟩ (bodyOf (.num ⟨101, by decide⟩)) storedIdStore).1
        = .ok ⟨true, "Room 101 checked out."⟩ ∧
      ∃ e, (getRooms true (checkout ⟨5, true⟩ (bodyOf (.num ⟨101, by decide⟩)) storedIdStore).2).1
          = .ok [e] ∧
        e.lookup "checkedOut" = some (.bool true) ∧
        e.lookup "id" = some (.str "999") ∧
        e.lookup "id" ≠ some (.str (jsString (.num ⟨101, by decide⟩))) :=
  ⟨rfl, rfl, _, rfl, rfl, rfl, by decide⟩

/-! ## The claims at concrete inputs -/

theorem getRooms_only_checkedOut_witness :
    (getRooms true ∅).1 = .ok [] ∧
      (roomElement ⟨"7", checkoutData 3⟩).lookup "checkedOut" = some (.bool true) :=
  ⟨(getRooms_only_checkedOut ∅).2.2 (fun k d h => by simp at h),
    (getRooms_only_checkedOut sampleStore).1 true [roomElement ⟨"7", checkoutData 3⟩] rfl _
      (List.mem_singleton.2 rfl)⟩

theorem getRooms_full_matching_set_witness :
    ∃ l, (getRooms true sampleStore).1 = .ok l ∧
      l.length =
        sampleStore.entries.countP (fun e => e.2.lookup "checkedOut" == some (.bool true)) ∧
      ∃! i : Nat,
        (∃ d1, (whereEq sampleStore "checkedOut" (.bool true))[i]?
          = some (⟨"7", d1⟩ : DocSnapshot)) ∧
        (whereEq sampleStore "checkedOut" (.bool true))[i]?
          = some (⟨"7", checkoutData 3⟩ : DocSnapshot) ∧
        l[i]? = some (roomElement ⟨"7", checkoutData 3⟩) :=
  getRooms_full_matching_set sampleStore "7" (checkoutData 3) rfl rfl

theorem checkout_key_isolation_witness :
    (checkout ⟨9, true⟩ (bodyOf (.str "12")) (AList.singleton "120" (checkoutData 1))).2.lookup
        "120" = some (checkoutData 1) :=
  checkout_key_isolation ⟨9, true⟩ (bodyOf (.str "12")) (AList.singleton "120" (checkoutData 1))
    "120" (fun h => by simp [roomNumberOf_bodyOf, toStringMethod] at h)

theorem checkout_merges_witness :
    ∃ d1, (checkout ⟨5, true⟩ (bodyOf (.num ⟨101, by decide⟩)) guestStore).2.lookup "101" = some d1 ∧
      ∀ f, f ≠ "checkedOut" → f ≠ "checkoutTime" →
        d1.lookup f = (AList.singleton "guest" (.str "Ann") : Doc).lookup f :=
  (checkout_merges ⟨5, true⟩ (bodyOf (.num ⟨101, by decide⟩)) guestStore "101" rfl rfl).1 _ rfl

theorem checkout_twice_witness :
    ∃ a b,
      fieldOf (checkout ⟨1, true⟩ (bodyOf (.str "12")) ∅).2 "12" "checkoutTime"
        = some (.timestamp a) ∧
      fieldOf (checkout ⟨2, true⟩ (bodyOf (.str "12"))
          (checkout ⟨1, true⟩ (bodyOf (.str "12")) ∅).2).2 "12" "checkoutTime"
        = some (.timestamp b) ∧
      a < b :=
  (checkout_twice ∅ (bodyOf (.str "12")) (.str "12") "12" 1 2 rfl rfl).2.2.2.2.2 (by decide)

theorem checkout_ack_echoes_key_witness :
    (checkout ⟨5, true⟩ (bodyOf (.num ⟨101, by decide⟩)) ∅).1
        = .ok ⟨true, "Room 101 checked out."⟩ ∧
      (checkout ⟨5, true⟩ (bodyOf (.num ⟨101, by decide⟩)) ∅).2.lookup "101"
        = some (checkoutData 5) ∧
      (checkout ⟨5, true⟩ (bodyOf (.str "7")) ∅).1 = .ok ⟨true, "Room 7 checked out."⟩ :=
  ⟨congrArg Prod.fst
      (checkout_ack_echoes_key ⟨5, true⟩ (bodyOf (.num ⟨101, by decide⟩)) ∅
        (.num ⟨101, by decide⟩) "101" rfl rfl rfl).1,
    rfl,
    congrArg Prod.fst
      (checkout_ack_echoes_key ⟨5, true⟩ (bodyOf (.str "7")) ∅ (.str "7") "7" rfl rfl rfl).1⟩

theorem checkout_success_iff_witness :
    (∃ ack, (checkout ⟨5, true⟩ (bodyOf (.num ⟨101, by decide⟩)) sampleStore).1 = .ok ack) ∧
      checkout ⟨5, true⟩ ∅ sampleStore = (.error .typeError, sampleStore) ∧
      checkout ⟨5, true⟩ (bodyOf .null) sampleStore = (.error .typeError, sampleStore) :=
  ⟨(checkout_success_iff ⟨5, true⟩ (bodyOf (.num ⟨101, by decide⟩)) sampleStore).1.2 ⟨⟨"101", rfl⟩, rfl⟩,
    (checkout_success_iff ⟨5, true⟩ ∅ sampleStore).2.2 (Or.inl rfl),
    (checkout_success_iff ⟨5, true⟩ (bodyOf .null) sampleStore).2.2 (Or.inr rfl)⟩

theorem reachable_flag_with_time_witness :
    (checkoutData 5).lookup "checkedOut" = some (.bool true) ∧
      ∃ t, (checkoutData 5).lookup "checkoutTime" = some (.timestamp t) :=
  (reachable_flag_with_time sampleRequests).1 "101" (checkoutData 5) rfl

end PMSHotel
